import Mathlib

/-!
Verification of the bullish-divergence scanner
(`src/Bullish_Divergence_finder.py`).

The detector `detect_bullish_divergence_low` is embedded as a pure function
on an already-fetched bar list (the `yf.download` call is the external data
source; its result is the `bars` argument here).  Prices are modelled as
exact rationals (`ℚ`); dates are modelled as natural-number indices since
the code only formats and compares them positionally.  The Python function
returns a pair `(bool, dict)`; rejections are dictionaries holding a single
`"error"` entry, modelled by the `Details.err` constructor whose `Reason`
records the tag and, for the local-low rejection, the window minimum the
message interpolates.  The `try/except` wrapper that converts any runtime
failure into an `"error"` return is modelled by `Reason.exception`, produced
exactly where the Python body can raise on well-formed input (the
`idxmin` call on an empty preceding window).
-/

/-- One daily bar, reduced to the columns the detector reads: the date
index, the `Low` column and the `Close` column. -/
structure Bar where
  date : Nat
  low : ℚ
  close : ℚ
deriving Repr, DecidableEq

/-- `LOOKBACK_BARS = 10` — number of bars to look back. -/
def LOOKBACK_BARS : Nat := 10

/-- One step of the recursive exponential average used by
`Series.ewm(span, adjust=False).mean()`: `ema = prev + α·(x − prev)`. -/
def ewmStep (α prev x : ℚ) : ℚ := prev + α * (x - prev)

/-- Tail of the `adjust=False` exponential average, carrying the running
average `prev`. -/
def ewmFrom (α prev : ℚ) : List ℚ → List ℚ
  | [] => []
  | x :: xs => ewmStep α prev x :: ewmFrom α (ewmStep α prev x) xs

/-- `Series.ewm(alpha=α, adjust=False).mean()`: seeded with the first
value, then the recursion `ewmStep`. -/
def ewm (α : ℚ) : List ℚ → List ℚ
  | [] => []
  | x :: xs => x :: ewmFrom α x xs

/-- The smoothing factor pandas derives from a span: `α = 2/(span+1)`. -/
def spanAlpha (span : Nat) : ℚ := 2 / (span + 1)

/-- `close.ewm(span=n, adjust=False).mean()`. -/
def emaSpan (span : Nat) (xs : List ℚ) : List ℚ := ewm (spanAlpha span) xs

/-- `dif = ema12 - ema26` (fast minus slow EMA of the closes). -/
def difOf (close : List ℚ) : List ℚ :=
  List.zipWith (fun a b => a - b) (emaSpan 12 close) (emaSpan 26 close)

/-- `dea = dif.ewm(span=9, adjust=False).mean()` (the signal line). -/
def deaOf (close : List ℚ) : List ℚ := emaSpan 9 (difOf close)

/-- `macd_hist = (dif - dea) * 2`. -/
def histOf (close : List ℚ) : List ℚ :=
  List.zipWith (fun a b => (a - b) * 2) (difOf close) (deaOf close)

/-- The `Close` column of the bar list. -/
def closesOf (bars : List Bar) : List ℚ := bars.map Bar.close

/-- The `Low` column of the bar list. -/
def lowsOf (bars : List Bar) : List ℚ := bars.map Bar.low

/-- The date index of the bar list. -/
def datesOf (bars : List Bar) : List Nat := bars.map Bar.date

/-- `xs.iloc[-k:]` — the trailing `k` elements of a series. -/
def lastN (k : Nat) (xs : List α) : List α := xs.drop (xs.length - k)

/-- `Series.min()` on a non-empty series (the empty case never feeds a
comparison in the detector; pandas would yield NaN there). -/
def listMin : List ℚ → ℚ
  | [] => 0
  | x :: xs => xs.foldl min x

/-- `low.iloc[-(LOOKBACK_BARS + 1):]` with `lookback` in place of the
global constant. -/
def recentLows (lookback : Nat) (bars : List Bar) : List ℚ :=
  lastN (lookback + 1) (lowsOf bars)

/-- `macd_hist.iloc[-(LOOKBACK_BARS + 1):]`. -/
def recentHists (lookback : Nat) (bars : List Bar) : List ℚ :=
  lastN (lookback + 1) (histOf (closesOf bars))

/-- `close.iloc[-(LOOKBACK_BARS + 1):]`. -/
def recentCloses (lookback : Nat) (bars : List Bar) : List ℚ :=
  lastN (lookback + 1) (closesOf bars)

/-- `df.index[-(LOOKBACK_BARS + 1):]`. -/
def recentDates (lookback : Nat) (bars : List Bar) : List Nat :=
  lastN (lookback + 1) (datesOf bars)

/-- `current_low = float(recent_low.iloc[-1])`. -/
def currentLow (lookback : Nat) (bars : List Bar) : ℚ :=
  (recentLows lookback bars).getLastD 0

/-- `current_hist = float(recent_hist.iloc[-1])`. -/
def currentHist (lookback : Nat) (bars : List Bar) : ℚ :=
  (recentHists lookback bars).getLastD 0

/-- `current_close = float(recent_close.iloc[-1])`. -/
def currentClose (lookback : Nat) (bars : List Bar) : ℚ :=
  (recentCloses lookback bars).getLastD 0

/-- `current_date = recent_dates[-1]`. -/
def currentDate (lookback : Nat) (bars : List Bar) : Nat :=
  (recentDates lookback bars).getLastD 0

/-- `min_low = float(recent_low.min())`. -/
def minLow (lookback : Nat) (bars : List Bar) : ℚ :=
  listMin (recentLows lookback bars)

/-- `recent_hist.iloc[:-1]` — the histogram window excluding the trigger
bar. -/
def prevHists (lookback : Nat) (bars : List Bar) : List ℚ :=
  (recentHists lookback bars).dropLast

/-- `recent_dates[:-1]` — the dates aligned with `prevHists`. -/
def prevDates (lookback : Nat) (bars : List Bar) : List Nat :=
  (recentDates lookback bars).dropLast

/-- `prev_hist_min = float(recent_hist.iloc[:-1].min())`. -/
def prevHistMin (lookback : Nat) (bars : List Bar) : ℚ :=
  listMin (prevHists lookback bars)

/-- `Series.idxmin()` restricted to what the detector reads from it: the
index label (here a date) of the first element attaining the value `m`. -/
def firstDateOfMin (pairs : List (Nat × ℚ)) (m : ℚ) : Nat :=
  match pairs.find? (fun p => decide (p.2 = m)) with
  | some p => p.1
  | none => 0

/-- `prev_hist_min_date = recent_hist.iloc[:-1].idxmin()` — the date of the
first occurrence of the preceding-window histogram minimum. -/
def prevHistMinDate (lookback : Nat) (bars : List Bar) : Nat :=
  firstDateOfMin ((prevDates lookback bars).zip (prevHists lookback bars))
    (prevHistMin lookback bars)

/-- `hist_improvement = (current_hist - prev_hist_min) / abs(prev_hist_min)
* 100 if prev_hist_min != 0 else 0`. -/
def histImprovement (lookback : Nat) (bars : List Bar) : ℚ :=
  if prevHistMin lookback bars ≠ 0 then
    (currentHist lookback bars - prevHistMin lookback bars)
      / |prevHistMin lookback bars| * 100
  else 0

/-- The tag (and interpolated datum) of each `{"error": ...}` dictionary
the detector can return: `"Insufficient data"`, `f"Not lowest low
(min={min_low:.2f})"`, `"Histogram not rising"`, and `str(e)` from the
`except` clause. -/
inductive Reason where
  | insufficient_data : Reason
  | not_local_low (min_low : ℚ) : Reason
  | histogram_not_rising : Reason
  | exception : Reason
deriving Repr, DecidableEq

/-- The success dictionary `data` returned with `True`. -/
structure Finding where
  date : Nat
  price : ℚ
  low : ℚ
  hist : ℚ
  dif : ℚ
  dea : ℚ
  prev_hist_min : ℚ
  prev_hist_date : Nat
  hist_improvement_pct : ℚ
deriving Repr, DecidableEq

/-- The `dict` component of the detector's return value: either an error
dictionary (single `"error"` key) or a finding. -/
inductive Details where
  | err (reason : Reason) : Details
  | finding (f : Finding) : Details
deriving Repr, DecidableEq

/-- The `data` dictionary built in the success branch of the detector. -/
def findingOf (lookback : Nat) (bars : List Bar) : Finding :=
  { date := currentDate lookback bars
    price := currentClose lookback bars
    low := currentLow lookback bars
    hist := currentHist lookback bars
    dif := (difOf (closesOf bars)).getLastD 0
    dea := (deaOf (closesOf bars)).getLastD 0
    prev_hist_min := prevHistMin lookback bars
    prev_hist_date := prevHistMinDate lookback bars
    hist_improvement_pct := histImprovement lookback bars }

/-- `detect_bullish_divergence_low`, with the downloaded frame replaced by
the `bars` argument and `LOOKBACK_BARS` generalized to the `lookback`
parameter.  The branch order mirrors the source: length floor, local-low
test, the `idxmin` call (which raises on an empty preceding window and is
then caught by the `except` clause), momentum test, success. -/
def detect (lookback : Nat) (bars : List Bar) : Bool × Details :=
  if bars.length < 30 then
    (false, Details.err Reason.insufficient_data)
  else if currentLow lookback bars ≠ minLow lookback bars then
    (false, Details.err (Reason.not_local_low (minLow lookback bars)))
  else if (prevHists lookback bars).isEmpty then
    (false, Details.err Reason.exception)
  else if currentHist lookback bars ≤ prevHistMin lookback bars then
    (false, Details.err Reason.histogram_not_rising)
  else
    (true, Details.finding (findingOf lookback bars))

/-- Whether the details dictionary contains the `"error"` key
(`"error" in data` in `run_scanner`). -/
def hasError : Details → Bool
  | Details.err _ => true
  | Details.finding _ => false

/-- The comparison behind `results.sort(key=lambda x:
x[1]['hist_improvement_pct'], reverse=True)`: pair `a` precedes pair `b`
when its improvement percentage is at least `b`'s. -/
def rankGE (a b : String × Finding) : Prop :=
  b.2.hist_improvement_pct ≤ a.2.hist_improvement_pct

instance : DecidableRel rankGE := fun a b =>
  inferInstanceAs (Decidable (b.2.hist_improvement_pct ≤ a.2.hist_improvement_pct))

/-- `results.sort(key=lambda x: x[1]['hist_improvement_pct'],
reverse=True)` — the orchestrator's stable descending sort of the
collected `(ticker, data)` pairs. -/
def sortResults (rs : List (String × Finding)) : List (String × Finding) :=
  List.insertionSort rankGE rs

/-- Modelled from the spec: the oscillator recursion as §4.1 states it —
`ema[0]` is the first input sample and
`ema[i] = ema[i-1] + α*(x[i] - ema[i-1])` — written as a pointwise
recurrence to compare against the list program `ewm`. -/
def specEMA (α : ℚ) (xs : List ℚ) : Nat → ℚ
  | 0 => xs.getD 0 0
  | i + 1 => specEMA α xs i + α * (xs.getD (i + 1) 0 - specEMA α xs i)

/-- A finding fixture that differs only in its improvement percentage,
for exercising the orchestrator's ranking. -/
def sampleFinding (p : ℚ) : Finding :=
  { date := 0, price := 0, low := 0, hist := 0, dif := 0, dea := 0,
    prev_hist_min := 0, prev_hist_date := 0, hist_improvement_pct := p }

/-- A 31-bar fixture: constant closes at 100 and lows at 50, except the
trigger bar, which closes higher at 113 while printing the lowest low 40.
Its histogram is 0 on every bar but the last, where it is 224/135. -/
def W1 : List Bar :=
  (List.range 31).map (fun i =>
    { date := i, low := if i = 30 then 40 else 50,
      close := if i = 30 then 113 else 100 })

/-- A 30-bar fixture: constant closes, lows at 50 except the trigger
bar's 60, so the trigger is not the window minimum. -/
def W2 : List Bar :=
  (List.range 30).map (fun i =>
    { date := i, low := if i = 29 then 60 else 50, close := 100 })

/-! ### Length bookkeeping for the oscillator series -/

theorem length_ewmFrom (α : ℚ) : ∀ (xs : List ℚ) (p : ℚ),
    (ewmFrom α p xs).length = xs.length
  | [], _ => rfl
  | _ :: xs, p => by simp [ewmFrom, length_ewmFrom α xs]

theorem length_ewm (α : ℚ) : ∀ xs : List ℚ, (ewm α xs).length = xs.length
  | [] => rfl
  | x :: xs => by simp [ewm, length_ewmFrom]

theorem length_emaSpan (span : Nat) (xs : List ℚ) :
    (emaSpan span xs).length = xs.length := length_ewm _ xs

theorem length_difOf (close : List ℚ) : (difOf close).length = close.length := by
  simp [difOf, List.length_zipWith, length_emaSpan]

theorem length_deaOf (close : List ℚ) : (deaOf close).length = close.length := by
  simp [deaOf, length_emaSpan, length_difOf]

theorem length_histOf (close : List ℚ) : (histOf close).length = close.length := by
  simp [histOf, List.length_zipWith, length_difOf, length_deaOf]

theorem length_recentHists (lookback : Nat) (bars : List Bar) :
    (recentHists lookback bars).length =
      bars.length - (bars.length - (lookback + 1)) := by
  simp [recentHists, lastN, length_histOf, closesOf]

theorem length_prevHists (lookback : Nat) (bars : List Bar) :
    (prevHists lookback bars).length =
      bars.length - (bars.length - (lookback + 1)) - 1 := by
  simp [prevHists, List.length_dropLast, length_recentHists]

theorem length_prevDates (lookback : Nat) (bars : List Bar) :
    (prevDates lookback bars).length = (prevHists lookback bars).length := by
  simp [prevDates, recentDates, datesOf, lastN, List.length_dropLast,
    length_prevHists]

theorem prevHists_isEmpty_false (lookback : Nat) (bars : List Bar)
    (hlen : 2 ≤ bars.length) (hwin : 1 ≤ lookback) :
    (prevHists lookback bars).isEmpty = false := by
  have h : (prevHists lookback bars).length ≠ 0 := by
    rw [length_prevHists]; omega
  cases hp : prevHists lookback bars with
  | nil => exact absurd (by rw [hp]; rfl) h
  | cons _ _ => rfl

/-! ### Inverting the detector's success branch -/

theorem detect_finding_eq (lookback : Nat) (bars : List Bar) (f : Finding)
    (h : detect lookback bars = (true, Details.finding f)) :
    f = findingOf lookback bars := by
  unfold detect at h
  split_ifs at h <;> simp only [Prod.mk.injEq] at h
  · exact absurd h.1 (by simp)
  · exact absurd h.1 (by simp)
  · exact absurd h.1 (by simp)
  · exact absurd h.1 (by simp)
  · cases h.2
    rfl

set_option maxRecDepth 100000

set_option maxHeartbeats 1000000

/-- C4: a series shorter than the 30-bar floor (the empty series
included) is rejected with `insufficient_data`, whatever the window size,
before any later step runs. -/
theorem detect_insufficient_data (lookback : Nat) (bars : List Bar)
    (h : bars.length < 30) :
    detect lookback bars = (false, Details.err Reason.insufficient_data) := by
  unfold detect
  rw [if_pos h]

theorem detect_insufficient_data_witness :
    detect 7 [] = (false, Details.err Reason.insufficient_data) :=
  detect_insufficient_data 7 [] (by decide)

/-- C2: past the length floor, the detector rejects with `not_local_low`
carrying the window minimum exactly when the trigger bar's low differs
from that minimum (exact equality, no tolerance); when they are equal it
never returns a `not_local_low` rejection. -/
theorem detect_not_local_low (lookback : Nat) (bars : List Bar)
    (h : 30 ≤ bars.length) :
    (currentLow lookback bars ≠ minLow lookback bars →
        detect lookback bars =
          (false, Details.err (Reason.not_local_low (minLow lookback bars)))) ∧
    (currentLow lookback bars = minLow lookback bars →
        ∀ m, detect lookback bars ≠ (false, Details.err (Reason.not_local_low m))) := by
  constructor
  · intro hne
    unfold detect
    rw [if_neg (by omega), if_pos hne]
  · intro heq m
    unfold detect
    rw [if_neg (by omega), if_neg (not_not_intro heq)]
    split_ifs <;> simp

theorem detect_not_local_low_witness :
    detect 10 W2 = (false, Details.err (Reason.not_local_low (minLow 10 W2))) :=
  (detect_not_local_low 10 W2 (by decide)).1 (by with_unfolding_all decide)

/-- C1: past the length floor, with `window_size ≥ 1` and the trigger low
equal to the window minimum, the detector rejects with
`histogram_not_rising` when the trigger histogram is at most the minimum
histogram of the preceding window, and emits the finding when it is
strictly greater. -/
theorem detect_momentum_gate (lookback : Nat) (bars : List Bar)
    (hlen : 30 ≤ bars.length) (hwin : 1 ≤ lookback)
    (hlow : currentLow lookback bars = minLow lookback bars) :
    (currentHist lookback bars ≤ prevHistMin lookback bars →
        detect lookback bars = (false, Details.err Reason.histogram_not_rising)) ∧
    (prevHistMin lookback bars < currentHist lookback bars →
        detect lookback bars = (true, Details.finding (findingOf lookback bars))) := by
  have hne : ¬ (prevHists lookback bars).isEmpty = true := by
    rw [prevHists_isEmpty_false lookback bars (by omega) hwin]
    exact Bool.false_ne_true
  constructor
  · intro hle
    unfold detect
    rw [if_neg (by omega), if_neg (not_not_intro hlow), if_neg hne, if_pos hle]
  · intro hgt
    unfold detect
    rw [if_neg (by omega), if_neg (not_not_intro hlow), if_neg hne,
      if_neg (not_le.mpr hgt)]

theorem detect_momentum_gate_witness :
    detect 10 W1 = (true, Details.finding (findingOf 10 W1)) :=
  (detect_momentum_gate 10 W1 (by decide) (by decide)
    (by with_unfolding_all decide)).2 (by with_unfolding_all decide)

/-- C5: every finding's improvement percentage follows the guarded
formula `(current_hist - prev_hist_min)/abs(prev_hist_min)*100` (zero
when the preceding minimum is zero), and the finding carries the trigger
date, close, low, histogram, the DIF/DEA values at the trigger, and the
preceding histogram minimum with its date. -/
theorem finding_fields (lookback : Nat) (bars : List Bar) (f : Finding)
    (h : detect lookback bars = (true, Details.finding f)) :
    f.hist_improvement_pct =
      (if prevHistMin lookback bars = 0 then 0
       else (currentHist lookback bars - prevHistMin lookback bars)
              / |prevHistMin lookback bars| * 100) ∧
    f.date = currentDate lookback bars ∧
    f.price = currentClose lookback bars ∧
    f.low = currentLow lookback bars ∧
    f.hist = currentHist lookback bars ∧
    f.dif = (difOf (closesOf bars)).getLastD 0 ∧
    f.dea = (deaOf (closesOf bars)).getLastD 0 ∧
    f.prev_hist_min = prevHistMin lookback bars ∧
    f.prev_hist_date = prevHistMinDate lookback bars := by
  have hf := detect_finding_eq lookback bars f h
  subst hf
  refine ⟨?_, rfl, rfl, rfl, rfl, rfl, rfl, rfl, rfl⟩
  show histImprovement lookback bars = _
  unfold histImprovement
  by_cases h0 : prevHistMin lookback bars = 0
  · simp [h0]
  · simp [h0]

theorem finding_fields_witness :
    (findingOf 10 W1).hist_improvement_pct =
      (if prevHistMin 10 W1 = 0 then 0
       else (currentHist 10 W1 - prevHistMin 10 W1)
              / |prevHistMin 10 W1| * 100) ∧
    (findingOf 10 W1).date = currentDate 10 W1 ∧
    (findingOf 10 W1).price = currentClose 10 W1 ∧
    (findingOf 10 W1).low = currentLow 10 W1 ∧
    (findingOf 10 W1).hist = currentHist 10 W1 ∧
    (findingOf 10 W1).dif = (difOf (closesOf W1)).getLastD 0 ∧
    (findingOf 10 W1).dea = (deaOf (closesOf W1)).getLastD 0 ∧
    (findingOf 10 W1).prev_hist_min = prevHistMin 10 W1 ∧
    (findingOf 10 W1).prev_hist_date = prevHistMinDate 10 W1 :=
  finding_fields 10 W1 (findingOf 10 W1) (by with_unfolding_all decide)

/-! ### `idxmin` returns the first index attaining the minimum -/

theorem firstDateOfMin_zip (m : ℚ) :
    ∀ (ds : List Nat) (vs : List ℚ) (i : Nat),
      ds.length = vs.length → i < vs.length →
      vs.getD i 0 = m → (∀ j, j < i → vs.getD j 0 ≠ m) →
      firstDateOfMin (ds.zip vs) m = ds.getD i 0
  | [], vs, i, hlen, hi, _, _ => by rw [← hlen] at hi; exact absurd hi (by simp)
  | _ :: _, [], _, _, hi, _, _ => by simp at hi
  | d :: ds, v :: vs, 0, hlen, hi, hmin, _ => by
      simp only [List.getD_cons_zero] at hmin
      unfold firstDateOfMin
      rw [List.zip_cons_cons, List.find?_cons_of_pos _ (by simp [hmin])]
      rfl
  | d :: ds, v :: vs, i + 1, hlen, hi, hmin, hfirst => by
      have hv : v ≠ m := by simpa using hfirst 0 (Nat.succ_pos i)
      unfold firstDateOfMin
      rw [List.zip_cons_cons, List.find?_cons_of_neg _ (by simp [hv])]
      exact firstDateOfMin_zip m ds vs i (by simpa using hlen)
        (by simpa using hi) (by simpa using hmin)
        (fun j hj => by simpa using hfirst (j + 1) (by omega))

/-- C6: when the preceding-window histogram minimum is attained at more
than one index, the date a finding reports for it is the date of the
earliest such index (first occurrence wins). -/
theorem prev_min_date_first_occurrence (lookback : Nat) (bars : List Bar)
    (f : Finding) (i : Nat)
    (hdet : detect lookback bars = (true, Details.finding f))
    (hi : i < (prevHists lookback bars).length)
    (hmin : (prevHists lookback bars).getD i 0 = prevHistMin lookback bars)
    (hfirst : ∀ j, j < i →
      (prevHists lookback bars).getD j 0 ≠ prevHistMin lookback bars) :
    f.prev_hist_date = (prevDates lookback bars).getD i 0 := by
  have hf := detect_finding_eq lookback bars f hdet
  subst hf
  show prevHistMinDate lookback bars = _
  unfold prevHistMinDate
  exact firstDateOfMin_zip _ _ _ i (length_prevDates lookback bars) hi hmin hfirst

theorem prev_min_date_first_occurrence_witness :
    (findingOf 10 W1).prev_hist_date = (prevDates 10 W1).getD 0 0 :=
  prev_min_date_first_occurrence 10 W1 (findingOf 10 W1) 0
    (by with_unfolding_all decide) (by with_unfolding_all decide)
    (by with_unfolding_all decide) (fun j hj => absurd hj (Nat.not_lt_zero j))

/-! ### The list-program EMA satisfies the spec's pointwise recurrence -/

theorem specEMA_shift (α p y : ℚ) (ys : List ℚ) (k : Nat) :
    specEMA α (ewmStep α p y :: ys) k = specEMA α (p :: y :: ys) (k + 1) := by
  induction k with
  | zero => simp [specEMA, ewmStep]
  | succ k ih => simp [specEMA, ih, List.getD_cons_succ]

theorem ewmFrom_getD (α : ℚ) :
    ∀ (xs : List ℚ) (p : ℚ) (i : Nat), i < xs.length →
      (ewmFrom α p xs).getD i 0 = specEMA α (p :: xs) (i + 1)
  | [], _, i, hi => absurd hi (by simp)
  | y :: ys, p, 0, _ => by simp [ewmFrom, specEMA, ewmStep]
  | y :: ys, p, i + 1, hi => by
      rw [ewmFrom, List.getD_cons_succ,
        ewmFrom_getD α ys (ewmStep α p y) i (by simpa using hi)]
      exact specEMA_shift α p y ys (i + 1)

theorem ewm_getD (α : ℚ) (xs : List ℚ) (i : Nat) (hi : i < xs.length) :
    (ewm α xs).getD i 0 = specEMA α xs i := by
  cases xs with
  | nil => simp at hi
  | cons x rest =>
    cases i with
    | zero => simp [ewm, specEMA]
    | succ j =>
      rw [ewm, List.getD_cons_succ]
      exact ewmFrom_getD α rest x j (by simpa using hi)

theorem getD_zipWith (f : ℚ → ℚ → ℚ) (as bs : List ℚ) (i : Nat)
    (ha : i < as.length) (hb : i < bs.length) :
    (List.zipWith f as bs).getD i 0 = f (as.getD i 0) (bs.getD i 0) := by
  rw [List.getD_eq_getElem _ _ (by rw [List.length_zipWith]; omega),
    List.getD_eq_getElem _ _ ha, List.getD_eq_getElem _ _ hb,
    List.getElem_zipWith]

/-- C3: on a non-empty closing sequence the engine computes, index by
index, the spec's seeded recurrences with α = 2/(N+1) for N = 12, 26 and
9, the fast-minus-slow difference, and the doubled histogram, with all
three outputs as long as the input. -/
theorem oscillator_engine_spec (close : List ℚ) (i : Nat)
    (_hne : close ≠ []) (hi : i < close.length) :
    (difOf close).length = close.length ∧
    (deaOf close).length = close.length ∧
    (histOf close).length = close.length ∧
    (emaSpan 12 close).getD i 0 = specEMA (2 / (12 + 1)) close i ∧
    (emaSpan 26 close).getD i 0 = specEMA (2 / (26 + 1)) close i ∧
    (difOf close).getD i 0 =
      (emaSpan 12 close).getD i 0 - (emaSpan 26 close).getD i 0 ∧
    (deaOf close).getD i 0 = specEMA (2 / (9 + 1)) (difOf close) i ∧
    (histOf close).getD i 0 =
      2 * ((difOf close).getD i 0 - (deaOf close).getD i 0) := by
  have h12 : spanAlpha 12 = 2 / (12 + 1) := by norm_num [spanAlpha]
  have h26 : spanAlpha 26 = 2 / (26 + 1) := by norm_num [spanAlpha]
  have h9 : spanAlpha 9 = 2 / (9 + 1) := by norm_num [spanAlpha]
  refine ⟨length_difOf close, length_deaOf close, length_histOf close,
    ?_, ?_, ?_, ?_, ?_⟩
  · rw [emaSpan, ewm_getD _ _ _ hi, h12]
  · rw [emaSpan, ewm_getD _ _ _ hi, h26]
  · rw [difOf, getD_zipWith _ _ _ i (by rw [length_emaSpan]; exact hi)
      (by rw [length_emaSpan]; exact hi)]
  · rw [deaOf, emaSpan, ewm_getD _ _ _ (by rw [length_difOf]; exact hi), h9]
  · rw [histOf, getD_zipWith _ _ _ i (by rw [length_difOf]; exact hi)
      (by rw [length_deaOf]; exact hi)]
    ring

theorem oscillator_engine_spec_witness :
    ([(1 : ℚ), 2] ≠ []) ∧
    ((difOf [(1 : ℚ), 2]).length = 2 ∧
      (deaOf [(1 : ℚ), 2]).length = 2 ∧
      (histOf [(1 : ℚ), 2]).length = 2 ∧
      (emaSpan 12 [(1 : ℚ), 2]).getD 1 0 = specEMA (2 / (12 + 1)) [(1 : ℚ), 2] 1 ∧
      (emaSpan 26 [(1 : ℚ), 2]).getD 1 0 = specEMA (2 / (26 + 1)) [(1 : ℚ), 2] 1 ∧
      (difOf [(1 : ℚ), 2]).getD 1 0 =
        (emaSpan 12 [(1 : ℚ), 2]).getD 1 0 - (emaSpan 26 [(1 : ℚ), 2]).getD 1 0 ∧
      (deaOf [(1 : ℚ), 2]).getD 1 0 = specEMA (2 / (9 + 1)) (difOf [(1 : ℚ), 2]) 1 ∧
      (histOf [(1 : ℚ), 2]).getD 1 0 =
        2 * ((difOf [(1 : ℚ), 2]).getD 1 0 - (deaOf [(1 : ℚ), 2]).getD 1 0)) :=
  ⟨by simp, oscillator_engine_spec [(1 : ℚ), 2] 1 (by simp) (by simp)⟩

/-! ### Constant input -/

theorem zipWith_replicate_eq (f : ℚ → ℚ → ℚ) (a b : ℚ) :
    ∀ n, List.zipWith f (List.replicate n a) (List.replicate n b) =
      List.replicate n (f a b)
  | 0 => rfl
  | n + 1 => by
      simp [List.replicate_succ, zipWith_replicate_eq f a b n]

theorem ewmFrom_replicate (α c : ℚ) :
    ∀ n, ewmFrom α c (List.replicate n c) = List.replicate n c
  | 0 => rfl
  | n + 1 => by
      have hstep : ewmStep α c c = c := by simp [ewmStep]
      simp [List.replicate_succ, ewmFrom, hstep, ewmFrom_replicate α c n]

theorem ewm_replicate (α c : ℚ) (n : Nat) :
    ewm α (List.replicate n c) = List.replicate n c := by
  cases n with
  | zero => rfl
  | succ n => simp [List.replicate_succ, ewm, ewmFrom_replicate]

/-- C7: on a constant closing sequence both exponential averages are that
constant at every index, so the fast-minus-slow series and the histogram
series are identically zero. -/
theorem oscillator_constant (c : ℚ) (n : Nat) :
    emaSpan 12 (List.replicate n c) = List.replicate n c ∧
    emaSpan 26 (List.replicate n c) = List.replicate n c ∧
    difOf (List.replicate n c) = List.replicate n 0 ∧
    histOf (List.replicate n c) = List.replicate n 0 := by
  have h12 : emaSpan 12 (List.replicate n c) = List.replicate n c :=
    ewm_replicate _ c n
  have h26 : emaSpan 26 (List.replicate n c) = List.replicate n c :=
    ewm_replicate _ c n
  have hdif : difOf (List.replicate n c) = List.replicate n 0 := by
    rw [difOf, h12, h26, zipWith_replicate_eq]
    simp
  have hdea : deaOf (List.replicate n c) = List.replicate n 0 := by
    rw [deaOf, hdif]
    exact ewm_replicate _ 0 n
  refine ⟨h12, h26, hdif, ?_⟩
  rw [histOf, hdif, hdea, zipWith_replicate_eq]
  simp

/-- C8: the orchestrator's report is a permutation of the collected
findings, pairwise descending in `hist_improvement_pct`; in particular
percentages [5, 20, 1] come out as [20, 5, 1]. -/
theorem report_ranking (rs : List (String × Finding)) :
    (sortResults rs).Perm rs ∧
    List.Pairwise rankGE (sortResults rs) ∧
    List.map (fun r => r.2.hist_improvement_pct)
      (sortResults
        [("A", sampleFinding 5), ("B", sampleFinding 20), ("C", sampleFinding 1)]) =
      [20, 5, 1] := by
  refine ⟨List.perm_insertionSort rankGE rs, ?_, ?_⟩
  · haveI : IsTotal (String × Finding) rankGE := ⟨fun a b => le_total _ _⟩
    haveI : IsTrans (String × Finding) rankGE :=
      ⟨fun a b c hab hbc => le_trans hbc hab⟩
    exact List.sorted_insertionSort rankGE rs
  · with_unfolding_all decide

/-- C9: the embedded detector is a total function: on every input it
returns an ordinary pair, either `False` with an error dictionary (the
three rejection tags, or the converted runtime failure) or `True` with a
finding — never exceptional control flow. -/
theorem detect_never_raises (lookback : Nat) (bars : List Bar) :
    (∃ r, detect lookback bars = (false, Details.err r)) ∨
    (∃ f, detect lookback bars = (true, Details.finding f)) := by
  unfold detect
  split_ifs <;>
    first
      | exact Or.inl ⟨_, rfl⟩
      | exact Or.inr ⟨_, rfl⟩

/-- C10: the detector's flag is `True` exactly when its details carry no
`"error"` entry, so results surviving the orchestrator's error filter
always have the flag set and the "no divergence" branch is unreachable. -/
theorem flag_iff_no_error (lookback : Nat) (bars : List Bar) :
    ((detect lookback bars).1 = true ↔
      hasError (detect lookback bars).2 = false) ∧
    (hasError (detect lookback bars).2 = false →
      (detect lookback bars).1 = true) := by
  constructor
  · unfold detect
    split_ifs <;> simp [hasError]
  · unfold detect
    split_ifs <;> simp [hasError]
